import Mathlib

/-!
Verification of the availability-determination engine of BeachRooms
(`beach-rooms-expo/lib/availability.ts`) against its specification.

The engine is a set of pure functions over JavaScript `Date` values that all
live on one calendar day: every `Date` handled by the engine is either the
caller-supplied reference instant or the result of `parseTimeToday` against
that instant, so all of them share the same day's midnight as origin and
`getTime()` comparisons reduce to comparing the millisecond offset from that
midnight.  We model a `Date` as that offset (`time`, an integer number of
milliseconds, unbounded above so that `setHours` roll-over past 24h keeps the
correct absolute order) together with the day of week of the base date
(`getDay()` is only ever read on the reference instant).  An *Invalid Date*
(any NaN component) is modelled as `time = none`; every NaN comparison in JS
is false, which the `js*` comparison helpers reproduce.
-/

/-- Model of a JavaScript `Date` as used by the engine: `dayOfWeek` is what
`getDay()` returns on the base date, `time` is the millisecond offset from the
base date's midnight (`none` models an Invalid Date). -/
structure JsDate where
  dayOfWeek : Nat
  time : Option Int
deriving DecidableEq

/-- Splitting of a character list at every occurrence of `c`, keeping empty
pieces; models JavaScript `String.prototype.split` with a single-character
separator. -/
def splitChList (c : Char) : List Char → List (List Char)
  | [] => [[]]
  | x :: xs =>
    match splitChList c xs with
    | [] => [[x]]
    | g :: gs => if x = c then [] :: g :: gs else (x :: g) :: gs

/-- JavaScript `timeString.split(c)` for a one-character separator. -/
def jsSplit (s : String) (c : Char) : List String :=
  (splitChList c s.data).map (fun l => ⟨l⟩)

/-- JavaScript `Number(s)` restricted to the strings the engine meets: a
(possibly empty) string of decimal digits evaluates to its decimal value
(`Number("") = 0`), anything else to NaN (`none`).  This covers every string
reachable from a `TIME` column and every string used in the theorems below. -/
def jsNumber (s : String) : Option Int :=
  if s.data.all Char.isDigit then
    some (s.data.foldl (fun a c => a * 10 + ((c.toNat : Int) - 48)) 0)
  else
    none

/-- Embedding of `parseTimeToday` (availability.ts lines 11-19): split on `:`,
convert the parts with `Number`, then `setHours(hours, minutes, seconds, 0)` on
a copy of the reference date.  A missing `parts[1]` is `undefined`, which
`setHours` coerces to NaN; a missing `parts[2]` is replaced by `0` through
`?? 0`.  `setHours` replaces the whole time-of-day relative to the base date's
midnight (rolling over when out of range) and yields an Invalid Date as soon
as one argument is NaN. -/
def parseTimeToday (timeString : String) (referenceDate : JsDate) : JsDate :=
  let parts := (jsSplit timeString ':').map jsNumber
  let hours := parts.getD 0 none
  let minutes := parts.getD 1 none
  let seconds := parts.getD 2 (some 0)
  { dayOfWeek := referenceDate.dayOfWeek
    time :=
      match referenceDate.time, hours, minutes, seconds with
      | some _, some h, some m, some s => some (h * 3600000 + m * 60000 + s * 1000)
      | _, _, _, _ => none }

/-- JavaScript `a < b` on dates: compares `getTime()`, false when either side
is NaN. -/
def jsLt (a b : JsDate) : Bool :=
  match a.time, b.time with
  | some x, some y => decide (x < y)
  | _, _ => false

/-- JavaScript `a <= b` on dates: compares `getTime()`, false when either side
is NaN. -/
def jsLe (a b : JsDate) : Bool :=
  match a.time, b.time with
  | some x, some y => decide (x ≤ y)
  | _, _ => false

/-- JavaScript `Math.floor((a.getTime() - b.getTime()) / 60000)`; `none`
models the NaN produced when either date is invalid.  `Int.fdiv` is floor
division, matching `Math.floor` of the real quotient. -/
def jsDiffMinutes (a b : JsDate) : Option Int :=
  match a.time, b.time with
  | some x, some y => some ((x - y).fdiv 60000)
  | _, _ => none

/-- Modelled from the spec: the building record shape consumed by the engine
(the `@/types/database` module is not part of the analysed sources).  Per §6 a
building exposes nullable weekday opening and closing time-of-day strings;
only these two fields are read by the engine. -/
structure Building where
  weekday_open : Option String
  weekday_close : Option String
deriving DecidableEq

/-- Modelled from the spec: a classroom joined with its parent building; the
engine only reads the `building` field and carries the record through to the
verdict. -/
structure ClassroomWithBuilding where
  building : Building
deriving DecidableEq

/-- Modelled from the spec: one recurring weekly schedule block; the engine
only reads the two `TIME` strings, plus an optional label carried along (§3,
§6). -/
structure ClassSchedule where
  start_time : String
  end_time : String
  course_code : Option String
deriving DecidableEq

/-- Result shape of `isBuildingOpen`. -/
structure BuildingGateResult where
  isOpen : Bool
  opensAt : Option JsDate
  closesAt : Option JsDate
deriving DecidableEq

/-- The availability verdict (`ClassroomAvailability`).  `status` holds one of
the four string literals `"open" | "in_use" | "limited" | "closed"` exactly as
the TypeScript union type does. -/
structure ClassroomAvailability where
  classroom : ClassroomWithBuilding
  isAvailable : Bool
  isBuildingOpen : Bool
  status : String
  nextClassStartsAt : Option JsDate
  currentClassEndsAt : Option JsDate
  minutesUntilNextClass : Option Int
  statusText : String
deriving DecidableEq

/-- Embedding of `isBuildingOpen` (availability.ts lines 25-51).  The falsy
test `!openTime || !closeTime` is true for `null` and for the empty string. -/
def isBuildingOpen (building : Building) (now : JsDate) : BuildingGateResult :=
  let dayOfWeek := now.dayOfWeek
  if dayOfWeek == 0 || dayOfWeek == 6 then
    ⟨false, none, none⟩
  else
    match building.weekday_open, building.weekday_close with
    | some openTime, some closeTime =>
      if openTime.isEmpty || closeTime.isEmpty then
        ⟨false, none, none⟩
      else
        let opensAt := parseTimeToday openTime now
        let closesAt := parseTimeToday closeTime now
        ⟨jsLe opensAt now && jsLe now closesAt, some opensAt, some closesAt⟩
    | _, _ => ⟨false, none, none⟩

/-- JavaScript `String(n).padStart(2, '0')` applied to a minute value. -/
def jsPadStart2 (s : String) : String :=
  if s.length ≥ 2 then s else if s.length = 1 then "0" ++ s else "00"

/-- `getHours()` of a valid date with offset `t` from midnight. -/
def hoursOfMs (t : Int) : Int :=
  (t.fdiv 3600000).emod 24

/-- `getMinutes()` of a valid date with offset `t` from midnight. -/
def minutesOfMs (t : Int) : Int :=
  (t.fdiv 60000).emod 60

/-- The 12-hour clock rendering `displayHours:displayMinutes ampm` shared by
the three time formatters: `ampm = hours >= 12 ? 'PM' : 'AM'`,
`displayHours = hours % 12 || 12`, minutes zero-padded.  On an Invalid Date
JavaScript renders `12:NaN AM` (NaN is falsy, `String(NaN) = "NaN"`). -/
def formatClock (d : JsDate) : String :=
  match d.time with
  | some t =>
    let hours := hoursOfMs t
    let minutes := minutesOfMs t
    let ampm := if hours ≥ 12 then "PM" else "AM"
    let displayHours := if hours % 12 = 0 then (12 : Int) else hours % 12
    let displayMinutes := jsPadStart2 (toString minutes)
    toString displayHours ++ ":" ++ displayMinutes ++ " " ++ ampm
  | none => "12:NaN AM"

/-- Embedding of `formatTimeUntil` (availability.ts lines 56-64). -/
def formatTimeUntil (targetTime : JsDate) (pre : String) : String :=
  pre ++ " " ++ formatClock targetTime

/-- Embedding of `formatDuration` (availability.ts lines 87-100).  The
argument is a JS number: `none` models NaN (every comparison false,
`Math.floor(NaN) = NaN % 60 = NaN`, rendered "NaN").  `Math.floor(m/60)` is
floor division and JS `%` is truncating remainder; the two agree on the
non-negative values produced by the engine. -/
def formatDuration (minutes : Option Int) : String :=
  match minutes with
  | some m =>
    if m < 60 then toString m ++ "m"
    else
      let hours := m.fdiv 60
      let remainingMinutes := m.tmod 60
      if remainingMinutes = 0 then toString hours ++ "h"
      else toString hours ++ "h " ++ toString remainingMinutes ++ "m"
  | none => "NaNh NaNm"

/-- Embedding of `formatFreeAtWithDuration` (availability.ts lines 105-113). -/
def formatFreeAtWithDuration (time : JsDate) (durationMinutes : Option Int) : String :=
  "Free at " ++ formatClock time ++ " for " ++ formatDuration durationMinutes

/-- Embedding of `formatFreeUntilWithDuration` (availability.ts lines
118-126). -/
def formatFreeUntilWithDuration (untilTime : JsDate) (durationMinutes : Option Int) : String :=
  "Free until " ++ formatClock untilTime ++ " (" ++ formatDuration durationMinutes ++ ")"

/-- The fixed policy constant `MIN_USABLE_MINUTES` (availability.ts line
128). -/
def MIN_USABLE_MINUTES : Int := 30

/-- Result shape of `findNextUsableWindow`. -/
structure UsableWindow where
  startsAt : JsDate
  durationMinutes : Int
deriving DecidableEq

/-- Sort key of the comparator `(a, b) => a.start.getTime() - b.start.getTime()`
used on resolved `{start, end}` pairs. -/
def startKey (p : JsDate × JsDate) : Int :=
  p.1.time.getD 0

/-- Stable insertion into a start-sorted list of resolved blocks. -/
def insertByStart (b : JsDate × JsDate) : List (JsDate × JsDate) → List (JsDate × JsDate)
  | [] => [b]
  | c :: cs => if startKey b ≤ startKey c then b :: c :: cs else c :: insertByStart b cs

/-- The stable ascending sort `.sort((a, b) => a.start.getTime() -
b.start.getTime())` of `findNextUsableWindow`, realised as a stable insertion
sort. -/
def sortByStart : List (JsDate × JsDate) → List (JsDate × JsDate)
  | [] => []
  | b :: bs => insertByStart b (sortByStart bs)

/-- The `for (const schedule of futureSchedules)` sweep of
`findNextUsableWindow` (availability.ts lines 153-174) together with the final
gap check against `buildingCloses`: a gap of at least `MIN_USABLE_MINUTES`
whole minutes between the cursor and the next block's start (or the closing
instant) is returned as the window, a shorter gap advances the cursor to the
block's end.  A NaN gap fails the `>=` test, exactly as in JS. -/
def usableLoop (buildingCloses : JsDate) : List (JsDate × JsDate) → JsDate → Option UsableWindow
  | [], checkTime =>
    match jsDiffMinutes buildingCloses checkTime with
    | some remainingMinutes =>
      if remainingMinutes ≥ MIN_USABLE_MINUTES then some ⟨checkTime, remainingMinutes⟩ else none
    | none => none
  | schedule :: rest, checkTime =>
    match jsDiffMinutes schedule.1 checkTime with
    | some gapMinutes =>
      if gapMinutes ≥ MIN_USABLE_MINUTES then some ⟨checkTime, gapMinutes⟩
      else usableLoop buildingCloses rest schedule.2
    | none => usableLoop buildingCloses rest schedule.2

/-- Embedding of `findNextUsableWindow` (availability.ts lines 139-175):
resolve every block against `fromTime`, keep the blocks whose end is after
`fromTime`, sort by start, then sweep. -/
def findNextUsableWindow (schedules : List ClassSchedule) (fromTime : JsDate)
    (buildingCloses : JsDate) : Option UsableWindow :=
  let futureSchedules :=
    sortByStart (((schedules.map (fun s =>
      (parseTimeToday s.start_time fromTime, parseTimeToday s.end_time fromTime))).filter
      (fun s => jsLt fromTime s.2)))
  usableLoop buildingCloses futureSchedules fromTime

/-- One step of the current/next scan of `calculateAvailability`
(availability.ts lines 249-260): a block containing `now` overwrites
`currentClass`; a future block replaces `nextClass` when `nextClass` is unset
or starts later. -/
def scanStep (now : JsDate) (acc : Option ClassSchedule × Option ClassSchedule)
    (schedule : ClassSchedule) : Option ClassSchedule × Option ClassSchedule :=
  let startTime := parseTimeToday schedule.start_time now
  let endTime := parseTimeToday schedule.end_time now
  if jsLe startTime now && jsLt now endTime then
    (some schedule, acc.2)
  else if jsLt now startTime then
    match acc.2 with
    | none => (acc.1, some schedule)
    | some nextClass =>
      if jsLt startTime (parseTimeToday nextClass.start_time now) then (acc.1, some schedule)
      else acc
  else acc

/-- The full `for (const schedule of schedules)` scan of
`calculateAvailability`, started from `(null, null)`. -/
def scanBlocks (schedules : List ClassSchedule) (now : JsDate) :
    Option ClassSchedule × Option ClassSchedule :=
  schedules.foldl (scanStep now) (none, none)

/-- Embedding of `calculateAvailability` (availability.ts lines 180-333). -/
def calculateAvailability (classroom : ClassroomWithBuilding)
    (schedules : List ClassSchedule) (now : JsDate) : ClassroomAvailability :=
  let dayOfWeek := now.dayOfWeek
  let isWeekend := dayOfWeek == 0 || dayOfWeek == 6
  let buildingStatus := isBuildingOpen classroom.building now
  match buildingStatus.opensAt, buildingStatus.closesAt with
  | some opensAt, some closesAt =>
    if jsLt now opensAt then
      ⟨classroom, false, false, "closed", some opensAt, none, none,
        formatTimeUntil opensAt "Opens at"⟩
    else if jsLt closesAt now then
      ⟨classroom, false, false, "closed", none, none, none, "Building closed"⟩
    else if schedules.length == 0 then
      ⟨classroom, false, buildingStatus.isOpen, "closed", none, none, none, "No classes today"⟩
    else
      let scanned := scanBlocks schedules now
      match scanned.1 with
      | some currentClass =>
        let endsAt := parseTimeToday currentClass.end_time now
        let nextWindow := findNextUsableWindow schedules endsAt closesAt
        ⟨classroom, false, true, "in_use",
          scanned.2.map (fun nextClass => parseTimeToday nextClass.start_time now),
          some endsAt, none,
          match nextWindow with
          | some w => formatFreeAtWithDuration w.startsAt (some w.durationMinutes)
          | none => "Busy all day"⟩
      | none =>
        match scanned.2 with
        | some nextClass =>
          let nextStartTime := parseTimeToday nextClass.start_time now
          let minutesUntil := jsDiffMinutes nextStartTime now
          if (match minutesUntil with
              | some m => decide (m < MIN_USABLE_MINUTES)
              | none => false) then
            let nextWindow := findNextUsableWindow schedules now closesAt
            ⟨classroom, false, true, "limited", some nextStartTime, none, minutesUntil,
              match nextWindow with
              | some w => formatFreeAtWithDuration w.startsAt (some w.durationMinutes)
              | none => "Busy all day"⟩
          else
            ⟨classroom, true, true, "open", some nextStartTime, none, minutesUntil,
              formatFreeUntilWithDuration nextStartTime minutesUntil⟩
        | none =>
          let minutesUntilClose := jsDiffMinutes closesAt now
          ⟨classroom, true, true, "open", none, none, none,
            formatFreeUntilWithDuration closesAt minutesUntilClose⟩
  | _, _ =>
    ⟨classroom, false, false, "closed", none, none, none,
      if isWeekend then "Closed on weekends" else "No classes today"⟩

/-- Embedding of `getStatusColor` (availability.ts lines 338-349). -/
def getStatusColor (status : String) : String :=
  if status = "open" then "#28a745"
  else if status = "in_use" then "#dc3545"
  else if status = "limited" then "#ffc107"
  else "#6c757d"

/-- Embedding of `getStatusLabel` (availability.ts lines 354-365). -/
def getStatusLabel (status : String) : String :=
  if status = "open" then "Open"
  else if status = "in_use" then "In Use"
  else if status = "limited" then "Limited"
  else "Closed"

/-!
Specification-side notions used to state the claims, together with an
integer-level mirror of the resolved sweep of `findNextUsableWindow` used by
the proofs.  An instant is *usable* when it lies at or after the search start,
a full 30 minutes (`1800000` ms) fit before the closing instant, and no block
overlaps those 30 minutes.
-/

/-- Two resolved blocks do not overlap. -/
def blockDisjoint (p q : Int × Int) : Prop :=
  p.2 ≤ q.1 ∨ q.2 ≤ p.1

/-- The instant `t` is a usable-window start for the resolved blocks `pairs`,
search start `f` and closing instant `c`: it is at or after `f`, at least 30
whole minutes remain before `c`, and no block intersects `[t, t + 30min)`. -/
def usableAt (pairs : List (Int × Int)) (f c t : Int) : Prop :=
  f ≤ t ∧ t + 1800000 ≤ c ∧ ∀ p ∈ pairs, p.2 ≤ t ∨ t + 1800000 ≤ p.1

/-- `m` is the end bound of the usable window starting at `t`: the earlier of
the closing instant `c` and the starts of all blocks after `t` (and equal to
one of them). -/
def windowBound (pairs : List (Int × Int)) (c t m : Int) : Prop :=
  m ≤ c ∧ (∀ p ∈ pairs, t < p.1 → m ≤ p.1) ∧ (m = c ∨ ∃ p ∈ pairs, t < p.1 ∧ p.1 = m)

/-- Integer-level mirror of `insertByStart` on resolved `(start, end)` pairs. -/
def intInsert (b : Int × Int) : List (Int × Int) → List (Int × Int)
  | [] => [b]
  | c :: cs => if b.1 ≤ c.1 then b :: c :: cs else c :: intInsert b cs

/-- Integer-level mirror of `sortByStart`. -/
def intSort : List (Int × Int) → List (Int × Int)
  | [] => []
  | b :: bs => intInsert b (intSort bs)

/-- Integer-level mirror of `usableLoop` on resolved `(start, end)` pairs. -/
def intLoop (c : Int) : List (Int × Int) → Int → Option (Int × Int)
  | [], t =>
    if 30 ≤ (c - t).fdiv 60000 then some (t, (c - t).fdiv 60000) else none
  | p :: rest, t =>
    if 30 ≤ (p.1 - t).fdiv 60000 then some (t, (p.1 - t).fdiv 60000)
    else intLoop c rest p.2

lemma fdiv_ge_30 (x : Int) : 30 ≤ x.fdiv 60000 ↔ 1800000 ≤ x := by
  rw [Int.fdiv_eq_ediv _ (by norm_num : (0 : Int) ≤ 60000),
    Int.le_ediv_iff_mul_le (by norm_num : (0 : Int) < 60000)]
  norm_num

lemma intInsert_perm (b : Int × Int) (l : List (Int × Int)) :
    (intInsert b l).Perm (b :: l) := by
  induction l with
  | nil => exact List.Perm.refl _
  | cons c cs ih =>
    unfold intInsert
    by_cases h : b.1 ≤ c.1
    · simp [h]
    · simp only [h, if_false]
      exact (ih.cons c).trans (List.Perm.swap b c cs)

lemma intInsert_mem {a b : Int × Int} {l : List (Int × Int)} :
    a ∈ intInsert b l ↔ a = b ∨ a ∈ l := by
  rw [(intInsert_perm b l).mem_iff, List.mem_cons]

lemma intSort_perm (l : List (Int × Int)) : (intSort l).Perm l := by
  induction l with
  | nil => exact List.Perm.refl _
  | cons b bs ih => exact (intInsert_perm b (intSort bs)).trans (ih.cons b)

lemma intInsert_pairwise {b : Int × Int} {l : List (Int × Int)}
    (h : l.Pairwise (fun p q => p.1 ≤ q.1)) :
    (intInsert b l).Pairwise (fun p q => p.1 ≤ q.1) := by
  induction l with
  | nil => simp [intInsert]
  | cons c cs ih =>
    rw [List.pairwise_cons] at h
    unfold intInsert
    by_cases hb : b.1 ≤ c.1
    · simp only [hb, if_true]
      refine List.pairwise_cons.2 ⟨?_, List.pairwise_cons.2 ⟨h.1, h.2⟩⟩
      intro q hq
      rcases List.mem_cons.1 hq with rfl | hq
      · exact hb
      · exact le_trans hb (h.1 q hq)
    · simp only [hb, if_false]
      refine List.pairwise_cons.2 ⟨?_, ih h.2⟩
      intro q hq
      rcases intInsert_mem.1 hq with rfl | hq
      · exact le_of_lt (lt_of_not_le hb)
      · exact h.1 q hq

lemma intSort_pairwise (l : List (Int × Int)) :
    (intSort l).Pairwise (fun p q => p.1 ≤ q.1) := by
  induction l with
  | nil => simp [intSort]
  | cons b bs ih => exact intInsert_pairwise ih

lemma blockDisjoint_symm : ∀ {p q : Int × Int}, blockDisjoint p q → blockDisjoint q p := by
  intro p q h
  exact h.symm

/-- Invariant-carrying correctness of the integer-level sweep.  `full` is the
complete resolved block list (valid, within the day, pairwise disjoint), `L`
the still-unprocessed suffix of the sorted future blocks, `t` the cursor. -/
lemma intLoop_invariant (full : List (Int × Int)) (c f : Int)
    (hv : ∀ p ∈ full, p.1 < p.2) (hw : ∀ p ∈ full, p.2 ≤ c) :
    ∀ (L : List (Int × Int)) (t : Int),
      (∀ p ∈ L, p ∈ full) →
      L.Pairwise (fun p q => p.1 ≤ q.1) →
      L.Pairwise blockDisjoint →
      f ≤ t →
      (∀ u, f ≤ u → u < t → ¬ usableAt full f c u) →
      (∀ p ∈ full, p ∈ L ∨ p.2 ≤ t) →
      (∀ p ∈ L, t ≤ p.2) →
      (∀ w ∈ intLoop c L t,
        usableAt full f c w.1 ∧ (∀ u, u < w.1 → ¬ usableAt full f c u) ∧
          ∃ m, w.2 = (m - w.1).fdiv 60000 ∧ windowBound full c w.1 m) ∧
      (intLoop c L t = none → ∀ u, ¬ usableAt full f c u) := by
  intro L
  induction L with
  | nil =>
    intro t _ _ _ hft hearly habs _
    constructor
    · intro w hw'
      unfold intLoop at hw'
      by_cases hgap : 30 ≤ (c - t).fdiv 60000
      · simp only [hgap, if_true, Option.mem_def, Option.some_inj] at hw'
        subst hw'
        have hc30 : t + 1800000 ≤ c := by
          have := (fdiv_ge_30 (c - t)).1 hgap
          omega
        refine ⟨⟨hft, hc30, ?_⟩, ?_, c, rfl, le_refl c, ?_, Or.inl rfl⟩
        · intro p hp
          rcases habs p hp with h | h
          · exact absurd h (by simp)
          · exact Or.inl h
        · intro u hu hus
          exact hearly u hus.1 hu hus
        · intro p hp hpt
          rcases habs p hp with h | h
          · exact absurd h (by simp)
          · have := hv p hp
            omega
      · simp only [hgap, if_false] at hw'
        exact absurd hw' (by simp)
    · intro hnone u hus
      unfold intLoop at hnone
      by_cases hgap : 30 ≤ (c - t).fdiv 60000
      · simp [hgap] at hnone
      · have hlt : c - t < 1800000 := by
          by_contra hle
          exact hgap ((fdiv_ge_30 (c - t)).2 (by omega))
        rcases lt_or_le u t with hut | htu
        · exact hearly u hus.1 hut hus
        · have := hus.2.1
          omega
  | cons p rest ih =>
    intro t hsub hsorted hdisj hft hearly habs hcur
    have hpfull : p ∈ full := hsub p (List.mem_cons_self p rest)
    have hsorted' := List.pairwise_cons.1 hsorted
    have hdisj' := List.pairwise_cons.1 hdisj
    constructor
    · intro w hw'
      unfold intLoop at hw'
      by_cases hgap : 30 ≤ (p.1 - t).fdiv 60000
      · simp only [hgap, if_true, Option.mem_def, Option.some_inj] at hw'
        subst hw'
        have h30 : t + 1800000 ≤ p.1 := by
          have := (fdiv_ge_30 (p.1 - t)).1 hgap
          omega
        have hpc : p.1 ≤ c := le_trans (le_of_lt (hv p hpfull)) (hw p hpfull)
        refine ⟨⟨hft, le_trans h30 hpc, ?_⟩, ?_, p.1, rfl, hpc, ?_, Or.inr ⟨p, hpfull, by omega, rfl⟩⟩
        · intro q hq
          rcases habs q hq with h | h
          · rcases List.mem_cons.1 h with rfl | hqr
            · exact Or.inr h30
            · exact Or.inr (le_trans h30 (hsorted'.1 q hqr))
          · exact Or.inl h
        · intro u hu hus
          exact hearly u hus.1 hu hus
        · intro q hq hqt
          rcases habs q hq with h | h
          · rcases List.mem_cons.1 h with rfl | hqr
            · exact le_refl _
            · exact hsorted'.1 q hqr
          · have := hv q hq
            omega
      · simp only [hgap, if_false] at hw'
        have hlt : p.1 < t + 1800000 := by
          by_contra hle
          exact hgap ((fdiv_ge_30 (p.1 - t)).2 (by omega))
        have htp2 : t ≤ p.2 := hcur p (List.mem_cons_self p rest)
        refine (ih p.2 (fun q hq => hsub q (List.mem_cons_of_mem p hq)) hsorted'.2 hdisj'.2
          (le_trans hft htp2) ?_ ?_ ?_).1 w hw'
        · intro u hfu hu hus
          rcases lt_or_le u t with hut | htu
          · exact hearly u hfu hut hus
          · rcases hus.2.2 p hpfull with h | h
            · omega
            · omega
        · intro q hq
          rcases habs q hq with h | h
          · rcases List.mem_cons.1 h with rfl | hqr
            · exact Or.inr (le_refl _)
            · exact Or.inl hqr
          · exact Or.inr (le_trans h htp2)
        · intro q hq
          rcases hdisj'.1 q hq with h | h
          · exact le_trans h (le_of_lt (hv q (hsub q (List.mem_cons_of_mem p hq))))
          · have h1 := hsorted'.1 q hq
            have h2 := hv q (hsub q (List.mem_cons_of_mem p hq))
            omega
    · intro hnone
      unfold intLoop at hnone
      by_cases hgap : 30 ≤ (p.1 - t).fdiv 60000
      · simp [hgap] at hnone
      · simp only [hgap, if_false] at hnone
        have hlt : p.1 < t + 1800000 := by
          by_contra hle
          exact hgap ((fdiv_ge_30 (p.1 - t)).2 (by omega))
        have htp2 : t ≤ p.2 := hcur p (List.mem_cons_self p rest)
        refine (ih p.2 (fun q hq => hsub q (List.mem_cons_of_mem p hq)) hsorted'.2 hdisj'.2
          (le_trans hft htp2) ?_ ?_ ?_).2 hnone
        · intro u hfu hu hus
          rcases lt_or_le u t with hut | htu
          · exact hearly u hfu hut hus
          · rcases hus.2.2 p hpfull with h | h
            · omega
            · omega
        · intro q hq
          rcases habs q hq with h | h
          · rcases List.mem_cons.1 h with rfl | hqr
            · exact Or.inr (le_refl _)
            · exact Or.inl hqr
          · exact Or.inr (le_trans h htp2)
        · intro q hq
          rcases hdisj'.1 q hq with h | h
          · exact le_trans h (le_of_lt (hv q (hsub q (List.mem_cons_of_mem p hq))))
          · have h1 := hsorted'.1 q hq
            have h2 := hv q (hsub q (List.mem_cons_of_mem p hq))
            omega

/-- Correctness of the integer-level pipeline (filter, sort, sweep) for valid,
within-day, pairwise disjoint resolved blocks. -/
lemma intPipeline_spec (pairs : List (Int × Int)) (c f : Int)
    (hv : ∀ p ∈ pairs, p.1 < p.2) (hw : ∀ p ∈ pairs, p.2 ≤ c)
    (hd : pairs.Pairwise blockDisjoint) :
    (∀ w ∈ intLoop c (intSort (pairs.filter (fun p => decide (f < p.2)))) f,
      usableAt pairs f c w.1 ∧ (∀ u, u < w.1 → ¬ usableAt pairs f c u) ∧
        ∃ m, w.2 = (m - w.1).fdiv 60000 ∧ windowBound pairs c w.1 m) ∧
    (intLoop c (intSort (pairs.filter (fun p => decide (f < p.2)))) f = none →
      ∀ u, ¬ usableAt pairs f c u) := by
  have hmemL : ∀ p, p ∈ intSort (pairs.filter (fun p => decide (f < p.2))) ↔
      p ∈ pairs.filter (fun p => decide (f < p.2)) := by
    intro p
    exact (intSort_perm _).mem_iff
  have hsub : ∀ p ∈ intSort (pairs.filter (fun p => decide (f < p.2))), p ∈ pairs := by
    intro p hp
    exact (List.mem_filter.1 ((hmemL p).1 hp)).1
  have hdisjL : (intSort (pairs.filter (fun p => decide (f < p.2)))).Pairwise blockDisjoint := by
    have h1 : (pairs.filter (fun p => decide (f < p.2))).Pairwise blockDisjoint :=
      List.Pairwise.sublist (List.filter_sublist pairs) hd
    exact ((intSort_perm _).pairwise_iff (fun hxy => blockDisjoint_symm hxy)).2 h1
  refine intLoop_invariant pairs c f hv hw _ f hsub (intSort_pairwise _) hdisjL (le_refl f)
    (fun u hfu hu _ => absurd hfu (by omega)) ?_ ?_
  · intro p hp
    by_cases hfp : f < p.2
    · exact Or.inl ((hmemL p).2 (List.mem_filter.2 ⟨hp, by simpa using hfp⟩))
    · exact Or.inr (by omega)
  · intro p hp
    have := (List.mem_filter.1 ((hmemL p).1 hp)).2
    have : f < p.2 := by simpa using this
    omega

/-- A resolved `{start, end}` date pair corresponds to an integer pair: both
dates are valid, carry the base day `D`, and hold the given offsets. -/
def RelD (D : Nat) (jp : JsDate × JsDate) (ip : Int × Int) : Prop :=
  jp.1 = ⟨D, some ip.1⟩ ∧ jp.2 = ⟨D, some ip.2⟩

lemma forall2_filter_rel {D : Nat} (f : Int) (fromTime : JsDate)
    (hf : fromTime.time = some f) :
    ∀ {l : List (JsDate × JsDate)} {l' : List (Int × Int)},
      List.Forall₂ (RelD D) l l' →
      List.Forall₂ (RelD D) (l.filter (fun s => jsLt fromTime s.2))
        (l'.filter (fun p => decide (f < p.2))) := by
  intro l l' h
  induction h with
  | nil => exact List.Forall₂.nil
  | @cons jp ip l l' hr _ ih =>
    have hpred : jsLt fromTime jp.2 = decide (f < ip.2) := by
      rw [hr.2]
      unfold jsLt
      rw [hf]
    by_cases hc : f < ip.2
    · rw [List.filter_cons, List.filter_cons, hpred, if_pos (by simpa using hc),
        if_pos (by simpa using hc)]
      exact List.Forall₂.cons hr ih
    · rw [List.filter_cons, List.filter_cons, hpred, if_neg (by simpa using hc),
        if_neg (by simpa using hc)]
      exact ih

lemma startKey_rel {D : Nat} {jp : JsDate × JsDate} {ip : Int × Int}
    (h : RelD D jp ip) : startKey jp = ip.1 := by
  unfold startKey
  rw [h.1]
  rfl

lemma forall2_insert_rel {D : Nat} {jp : JsDate × JsDate} {ip : Int × Int}
    (hr : RelD D jp ip) :
    ∀ {l : List (JsDate × JsDate)} {l' : List (Int × Int)},
      List.Forall₂ (RelD D) l l' →
      List.Forall₂ (RelD D) (insertByStart jp l) (intInsert ip l') := by
  intro l l' h
  induction h with
  | nil => exact List.Forall₂.cons hr List.Forall₂.nil
  | @cons jq iq l l' hq hrest ih =>
    unfold insertByStart intInsert
    rw [startKey_rel hr, startKey_rel hq]
    by_cases hc : ip.1 ≤ iq.1
    · simp only [hc, if_true]
      exact List.Forall₂.cons hr (List.Forall₂.cons hq hrest)
    · simp only [hc, if_false]
      exact List.Forall₂.cons hq ih

lemma forall2_sort_rel {D : Nat} :
    ∀ {l : List (JsDate × JsDate)} {l' : List (Int × Int)},
      List.Forall₂ (RelD D) l l' →
      List.Forall₂ (RelD D) (sortByStart l) (intSort l') := by
  intro l l' h
  induction h with
  | nil => exact List.Forall₂.nil
  | cons hr _ ih => exact forall2_insert_rel hr ih

lemma usableLoop_eq_intLoop {D : Nat} (buildingCloses : JsDate) (c : Int)
    (hc : buildingCloses.time = some c) :
    ∀ {L : List (JsDate × JsDate)} {L' : List (Int × Int)},
      List.Forall₂ (RelD D) L L' → ∀ (t : JsDate) (tv : Int), t = ⟨D, some tv⟩ →
      usableLoop buildingCloses L t =
        (intLoop c L' tv).map (fun p => ⟨⟨D, some p.1⟩, p.2⟩) := by
  intro L L' h
  induction h with
  | nil =>
    intro t tv ht
    subst ht
    unfold usableLoop intLoop jsDiffMinutes
    rw [hc]
    by_cases hg : 30 ≤ (c - tv).fdiv 60000
    · simp [MIN_USABLE_MINUTES, hg]
    · simp [MIN_USABLE_MINUTES, hg]
  | @cons jp ip L L' hr _ ih =>
    intro t tv ht
    subst ht
    unfold usableLoop intLoop
    have hdiff : jsDiffMinutes jp.1 ⟨D, some tv⟩ = some ((ip.1 - tv).fdiv 60000) := by
      unfold jsDiffMinutes
      rw [hr.1]
    rw [hdiff]
    by_cases hg : 30 ≤ (ip.1 - tv).fdiv 60000
    · simp [MIN_USABLE_MINUTES, hg]
    · simp only [MIN_USABLE_MINUTES, hg, if_false, ge_iff_le]
      exact ih jp.2 ip.2 hr.2

lemma jsdate_eq_of_time {d : JsDate} {D : Nat} {t : Option Int}
    (hd : d.dayOfWeek = D) (ht : d.time = t) : d = ⟨D, t⟩ := by
  cases d
  cases hd
  cases ht
  rfl

/-- The resolution hypothesis used for `findNextUsableWindow`: every schedule
block's two time strings resolve (against `fromTime`) to the valid instants
recorded in `pairs`. -/
def ResolvesTo (fromTime : JsDate) (schedules : List ClassSchedule)
    (pairs : List (Int × Int)) : Prop :=
  List.Forall₂ (fun s p =>
    (parseTimeToday s.start_time fromTime).time = some p.1 ∧
    (parseTimeToday s.end_time fromTime).time = some p.2) schedules pairs

/-- Under the resolution hypothesis, `findNextUsableWindow` computes exactly
the integer-level pipeline. -/
lemma findNextUsableWindow_eq (schedules : List ClassSchedule)
    (fromTime buildingCloses : JsDate) (f c : Int) (pairs : List (Int × Int))
    (hf : fromTime.time = some f) (hc : buildingCloses.time = some c)
    (hres : ResolvesTo fromTime schedules pairs) :
    findNextUsableWindow schedules fromTime buildingCloses =
      (intLoop c (intSort (pairs.filter (fun p => decide (f < p.2)))) f).map
        (fun p => ⟨⟨fromTime.dayOfWeek, some p.1⟩, p.2⟩) := by
  have hmap : List.Forall₂ (RelD fromTime.dayOfWeek)
      (schedules.map (fun s =>
        (parseTimeToday s.start_time fromTime, parseTimeToday s.end_time fromTime))) pairs := by
    rw [List.forall₂_map_left_iff]
    refine hres.imp ?_
    intro s p hp
    exact ⟨jsdate_eq_of_time rfl hp.1, jsdate_eq_of_time rfl hp.2⟩
  have hfil := forall2_filter_rel (D := fromTime.dayOfWeek) f fromTime hf hmap
  have hsort := forall2_sort_rel hfil
  exact usableLoop_eq_intLoop buildingCloses c hc hsort fromTime f
    (jsdate_eq_of_time rfl hf)

/-- C1 (amended): for pairwise non-overlapping valid blocks that all end by
`dayClosesAt` (resolved values `pairs`), `findNextUsableWindow` returns the
earliest instant `t ≥ fromInstant` such that a full 30 whole minutes starting
at `t` fit before `dayClosesAt` and meet no block, together with the
whole-minute duration from `t` to the earlier of `dayClosesAt` and the starts
of the blocks after `t`; it returns null exactly when no such instant exists.
The original claim, without the within-day restriction, is refuted by
`C1_counterexample`. -/
theorem C1_findNextUsableWindow_correct
    (schedules : List ClassSchedule) (fromTime buildingCloses : JsDate)
    (f c : Int) (pairs : List (Int × Int))
    (hf : fromTime.time = some f) (hc : buildingCloses.time = some c)
    (hres : ResolvesTo fromTime schedules pairs)
    (hv : ∀ p ∈ pairs, p.1 < p.2) (hw : ∀ p ∈ pairs, p.2 ≤ c)
    (hd : pairs.Pairwise blockDisjoint) :
    (∀ w, findNextUsableWindow schedules fromTime buildingCloses = some w →
      ∃ t, w.startsAt = ⟨fromTime.dayOfWeek, some t⟩ ∧ usableAt pairs f c t ∧
        (∀ u, u < t → ¬ usableAt pairs f c u) ∧
        ∃ m, w.durationMinutes = (m - t).fdiv 60000 ∧ windowBound pairs c t m) ∧
    (findNextUsableWindow schedules fromTime buildingCloses = none →
      ∀ u, ¬ usableAt pairs f c u) := by
  have heq := findNextUsableWindow_eq schedules fromTime buildingCloses f c pairs hf hc hres
  have hspec := intPipeline_spec pairs c f hv hw hd
  constructor
  · intro w hwin
    rw [heq] at hwin
    rcases Option.map_eq_some'.1 hwin with ⟨p, hp, rfl⟩
    rcases hspec.1 p hp with ⟨h1, h2, m, h3, h4⟩
    exact ⟨p.1, rfl, h1, h2, m, h3, h4⟩
  · intro hwin
    rw [heq] at hwin
    exact hspec.2 (Option.map_eq_none'.1 hwin)

/-- Witness for C1: one block 09:00-10:15, search from 08:00, closing 22:00,
all instants in ms from midnight of a Monday. -/
theorem C1_witness :
    (∀ w, findNextUsableWindow [⟨"09:00", "10:15", none⟩] ⟨1, some 28800000⟩
        ⟨1, some 79200000⟩ = some w →
      ∃ t, w.startsAt = ⟨1, some t⟩ ∧
        usableAt [(32400000, 36900000)] 28800000 79200000 t ∧
        (∀ u, u < t → ¬ usableAt [(32400000, 36900000)] 28800000 79200000 u) ∧
        ∃ m, w.durationMinutes = (m - t).fdiv 60000 ∧
          windowBound [(32400000, 36900000)] 79200000 t m) ∧
    (findNextUsableWindow [⟨"09:00", "10:15", none⟩] ⟨1, some 28800000⟩
        ⟨1, some 79200000⟩ = none →
      ∀ u, ¬ usableAt [(32400000, 36900000)] 28800000 79200000 u) :=
  C1_findNextUsableWindow_correct [⟨"09:00", "10:15", none⟩] ⟨1, some 28800000⟩
    ⟨1, some 79200000⟩ 28800000 79200000 [(32400000, 36900000)] rfl rfl
    (List.Forall₂.cons (by decide) List.Forall₂.nil) (by decide) (by decide)
    (List.pairwise_singleton _ _)

/-- Counterexample to C1 as stated: a single block 23:00-23:45 (trivially
pairwise non-overlapping), `fromInstant` 22:30, `dayClosesAt` 22:00.  No
instant at or after 22:30 lies before the 22:00 closing instant, so by the
claim `findNextUsableWindow` should return null; instead the code returns a
window starting at 22:30 — after the building has closed — because the sweep
never compares its cursor with `dayClosesAt` while blocks remain. -/
theorem C1_counterexample :
    findNextUsableWindow [⟨"23:00", "23:45", none⟩] ⟨1, some 81000000⟩ ⟨1, some 79200000⟩ =
      some ⟨⟨1, some 81000000⟩, 30⟩ ∧
    (79200000 : Int) < 81000000 := by
  constructor
  · decide
  · decide

/-- The current-block predicate of the occupancy scan: `start ≤ now < end` on
the resolved dates (false whenever a date is invalid). -/
def isCurrentAt (now : JsDate) (schedule : ClassSchedule) : Bool :=
  jsLe (parseTimeToday schedule.start_time now) now &&
    jsLt now (parseTimeToday schedule.end_time now)

lemma scanStep_fst (now : JsDate) (acc : Option ClassSchedule × Option ClassSchedule)
    (s : ClassSchedule) :
    (scanStep now acc s).1 = if isCurrentAt now s then some s else acc.1 := by
  simp only [scanStep, isCurrentAt]
  by_cases h1 : (jsLe (parseTimeToday s.start_time now) now &&
      jsLt now (parseTimeToday s.end_time now)) = true
  · simp [h1]
  · simp only [h1, if_false]
    by_cases h2 : jsLt now (parseTimeToday s.start_time now) = true
    · simp only [h2, if_true]
      cases h4 : acc.2 with
      | none => rfl
      | some nextClass =>
        by_cases h3 : jsLt (parseTimeToday s.start_time now)
            (parseTimeToday nextClass.start_time now) = true
        · simp [h3]
        · simp [h3]
    · simp [h2]

lemma scan_fst_foldl (now : JsDate) :
    ∀ (l : List ClassSchedule) (acc : Option ClassSchedule × Option ClassSchedule),
      (List.foldl (scanStep now) acc l).1 =
        List.foldl (fun a s => if isCurrentAt now s then some s else a) acc.1 l := by
  intro l
  induction l with
  | nil => intro acc; rfl
  | cons s ss ih =>
    intro acc
    rw [List.foldl_cons, List.foldl_cons, ih, scanStep_fst]

lemma foldl_keepLast_eq (now : JsDate) (l : List ClassSchedule) :
    ∀ a : Option ClassSchedule,
      List.foldl (fun a s => if isCurrentAt now s then some s else a) a l =
        ((l.filter (isCurrentAt now)).getLast?).or a := by
  induction l using List.reverseRecOn with
  | nil => intro a; simp
  | append_singleton l s ih =>
    intro a
    rw [List.foldl_append, List.filter_append, ih]
    by_cases h : isCurrentAt now s = true
    · simp [h, List.getLast?_concat]
    · simp [h]

/-- The scan's current-block result is the last block in input order that
satisfies the current predicate. -/
lemma scanBlocks_fst (schedules : List ClassSchedule) (now : JsDate) :
    (scanBlocks schedules now).1 = (schedules.filter (isCurrentAt now)).getLast? := by
  unfold scanBlocks
  rw [scan_fst_foldl, foldl_keepLast_eq]
  exact Option.or_none

/-- C2 (amended): when at least one schedule block (in particular when two or
more overlapping blocks) satisfies the current-block predicate at the
reference instant, the occupancy scan inside `calculateAvailability` selects
the LAST such block in input order — each later match overwrites the earlier
one.  The original first-wins claim is refuted by `C2_counterexample`. -/
theorem C2_scan_keeps_last (schedules : List ClassSchedule) (now : JsDate)
    (h : schedules.filter (isCurrentAt now) ≠ []) :
    (scanBlocks schedules now).1 =
      some ((schedules.filter (isCurrentAt now)).getLast h) := by
  rw [scanBlocks_fst]
  exact List.getLast?_eq_getLast _ h

/-- Witness for C2: two overlapping blocks both current at 10:00. -/
theorem C2_witness :
    (scanBlocks [⟨"09:00", "11:00", none⟩, ⟨"09:30", "10:30", none⟩] ⟨1, some 36000000⟩).1 =
      some (([⟨"09:00", "11:00", none⟩, ⟨"09:30", "10:30", none⟩].filter
        (isCurrentAt ⟨1, some 36000000⟩)).getLast (by decide)) :=
  C2_scan_keeps_last [⟨"09:00", "11:00", none⟩, ⟨"09:30", "10:30", none⟩] ⟨1, some 36000000⟩
    (by decide)

/-- Counterexample to C2 as stated: blocks 09:00-11:00 and 09:30-10:30 are
both current at 10:00 (Monday); the first in input order is 09:00-11:00, yet
the scan selects 09:30-10:30, and `calculateAvailability` consequently
reports the current class as ending at 10:30 (37800000 ms), not 11:00. -/
theorem C2_counterexample :
    isCurrentAt ⟨1, some 36000000⟩ ⟨"09:00", "11:00", none⟩ = true ∧
    isCurrentAt ⟨1, some 36000000⟩ ⟨"09:30", "10:30", none⟩ = true ∧
    (scanBlocks [⟨"09:00", "11:00", none⟩, ⟨"09:30", "10:30", none⟩] ⟨1, some 36000000⟩).1 =
      some ⟨"09:30", "10:30", none⟩ ∧
    (⟨"09:00", "11:00", none⟩ : ClassSchedule) ≠ ⟨"09:30", "10:30", none⟩ ∧
    (calculateAvailability ⟨⟨some "08:00", some "22:00"⟩⟩
        [⟨"09:00", "11:00", none⟩, ⟨"09:30", "10:30", none⟩]
        ⟨1, some 36000000⟩).currentClassEndsAt = some ⟨1, some 37800000⟩ := by
  refine ⟨by decide, by decide, by decide, by decide, by decide⟩

/-- C7 (amended): a block whose resolved end does not strictly follow its
resolved start is never selected as the current block by the occupancy scan
(the engine, being a total function, cannot crash on it).  The
removal-invariance half of the original claim is refuted by
`C7_counterexample`. -/
theorem C7_degenerate_never_current (schedules : List ClassSchedule) (now : JsDate)
    (b : ClassSchedule)
    (hdeg : jsLt (parseTimeToday b.start_time now) (parseTimeToday b.end_time now) = false) :
    (scanBlocks schedules now).1 ≠ some b := by
  intro hcur
  rw [scanBlocks_fst] at hcur
  have hb : b ∈ schedules.filter (isCurrentAt now) := List.mem_of_getLast?_eq_some hcur
  have hc : isCurrentAt now b = true := (List.mem_filter.1 hb).2
  unfold isCurrentAt at hc
  rw [Bool.and_eq_true] at hc
  rcases hc with ⟨h1, h2⟩
  unfold jsLe at h1
  unfold jsLt at h2 hdeg
  rcases hs : (parseTimeToday b.start_time now).time with _ | sv
  · rw [hs] at h1
    cases h1
  rcases hn : now.time with _ | nv
  · rw [hs, hn] at h1
    cases h1
  rcases he : (parseTimeToday b.end_time now).time with _ | ev
  · rw [hn, he] at h2
    cases h2
  rw [hs, hn] at h1
  rw [hn, he] at h2
  rw [hs, he] at hdeg
  have hsv : sv ≤ nv := of_decide_eq_true h1
  have hnv : nv < ev := of_decide_eq_true h2
  have hfalse : decide (sv < ev) = false := hdeg
  rw [decide_eq_false_iff_not] at hfalse
  exact hfalse (by omega)

/-- Witness for C7: a reversed block 10:00-09:00 on a list also holding a
normal block; the scan never reports the reversed block as current. -/
theorem C7_witness :
    (scanBlocks [⟨"10:00", "09:00", none⟩, ⟨"09:00", "11:00", none⟩] ⟨1, some 36000000⟩).1 ≠
      some ⟨"10:00", "09:00", none⟩ :=
  C7_degenerate_never_current [⟨"10:00", "09:00", none⟩, ⟨"09:00", "11:00", none⟩]
    ⟨1, some 36000000⟩ ⟨"10:00", "09:00", none⟩ (by decide)

/-- Counterexample to C7 as stated: with the normal block 08:00-10:00 and the
zero-duration block 09:30-09:30 (end not strictly after start), searching from
08:30 with closing 22:00, removing the degenerate block changes the returned
window: with it the sweep's cursor is dragged back to 09:30 and the window is
(09:30, 750 min); without it the window is (10:00, 720 min). -/
theorem C7_counterexample :
    findNextUsableWindow [⟨"08:00", "10:00", none⟩, ⟨"09:30", "09:30", none⟩]
        ⟨1, some 30600000⟩ ⟨1, some 79200000⟩ = some ⟨⟨1, some 34200000⟩, 750⟩ ∧
    findNextUsableWindow [⟨"08:00", "10:00", none⟩]
        ⟨1, some 30600000⟩ ⟨1, some 79200000⟩ = some ⟨⟨1, some 36000000⟩, 720⟩ ∧
    jsLt (parseTimeToday "09:30" ⟨1, some 30600000⟩)
        (parseTimeToday "09:30" ⟨1, some 30600000⟩) = false ∧
    (some (⟨⟨1, some 34200000⟩, 750⟩ : UsableWindow) ≠ some ⟨⟨1, some 36000000⟩, 720⟩) := by
  refine ⟨by decide, by decide, by decide, by decide⟩

/-- A non-empty string of decimal digits (the spec's "non-negative integer"). -/
def isDigitGroup (s : String) : Bool :=
  !s.isEmpty && s.data.all Char.isDigit

/-- Decimal value of a digit group. -/
def digitGroupValue (s : String) : Int :=
  s.data.foldl (fun a c => a * 10 + ((c.toNat : Int) - 48)) 0

/-- Well-formedness of a time string, following the spec's words (§4.1): it
parses as 2-3 colon-separated non-negative integers with hour at most 23 and
minute/second at most 59. -/
def wellFormedTimeString (s : String) : Bool :=
  match jsSplit s ':' with
  | [h, m] =>
    isDigitGroup h && isDigitGroup m &&
      decide (digitGroupValue h ≤ 23) && decide (digitGroupValue m ≤ 59)
  | [h, m, s2] =>
    isDigitGroup h && isDigitGroup m && isDigitGroup s2 &&
      decide (digitGroupValue h ≤ 23) && decide (digitGroupValue m ≤ 59) &&
      decide (digitGroupValue s2 ≤ 59)
  | _ => false

/-- C3 (amended): `parseTimeToday` performs no validation and cannot fail —
the code defines no `MalformedTimeError` and contains no `throw` at all.  For
every input whose colon-separated parts all convert to numbers (with a missing
third part defaulting to 0), including out-of-range values such as hour 25,
it returns a valid instant carrying the reference date's day and the raw
`h:m:s` converted to milliseconds (rolling over past midnight), zero
sub-second component; parts that do not convert yield an Invalid Date, not an
error.  The original fails-with-error claim is refuted by
`C3_counterexample`. -/
theorem C3_parseTimeToday_noValidation (s : String) (ref : JsDate) (r : Int)
    (href : ref.time = some r) (h m sec : Int)
    (hp : (jsSplit s ':').map jsNumber = [some h, some m, some sec] ∨
          ((jsSplit s ':').map jsNumber = [some h, some m] ∧ sec = 0)) :
    parseTimeToday s ref =
      ⟨ref.dayOfWeek, some (h * 3600000 + m * 60000 + sec * 1000)⟩ := by
  unfold parseTimeToday
  rcases hp with hp | ⟨hp, rfl⟩
  · simp [hp, href]
  · simp [hp, href]

/-- Witness for C3: the digit-group input "25:00" resolves to 25 hours past
the Monday reference midnight. -/
theorem C3_witness :
    parseTimeToday "25:00" ⟨1, some 43200000⟩ = ⟨1, some 90000000⟩ := by
  have := C3_parseTimeToday_noValidation "25:00" ⟨1, some 43200000⟩ 43200000 rfl
    25 0 0 (Or.inr ⟨by decide, rfl⟩)
  simpa using this

/-- Counterexample to C3 as stated: "25:00" does not parse as a well-formed
time (hour 25 > 23), yet `parseTimeToday` does not fail with any error — it
returns the perfectly valid instant 25 h after the reference midnight (1:00 AM
of the next day).  No `MalformedTimeError` exists anywhere in the code, so
nothing can be propagated to the caller of `calculateAvailability`. -/
theorem C3_counterexample :
    wellFormedTimeString "25:00" = false ∧
    parseTimeToday "25:00" ⟨1, some 43200000⟩ = ⟨1, some 90000000⟩ := by
  refine ⟨by decide, by decide⟩

lemma parseTimeToday_empty (d : JsDate) : (parseTimeToday "" d).time = none := by
  unfold parseTimeToday
  cases d.time <;> rfl

lemma isEmpty_false_of_parses {t : String} {d : JsDate} {v : Int}
    (h : (parseTimeToday t d).time = some v) : t.isEmpty = false := by
  by_contra hne
  have he : t.isEmpty = true := by
    cases ht : t.isEmpty
    · exact absurd ht hne
    · rfl
  rw [(String.isEmpty_iff t).1 he] at h
  rw [parseTimeToday_empty] at h
  cases h

/-- Reduction of the building gate on a valid weekday with parseable hours. -/
lemma isBuildingOpen_weekday {building : Building} {now : JsDate} {ot ct : String}
    {ov cv : Int}
    (hwd : now.dayOfWeek ≠ 0 ∧ now.dayOfWeek ≠ 6)
    (ho : building.weekday_open = some ot) (hc : building.weekday_close = some ct)
    (hov : (parseTimeToday ot now).time = some ov)
    (hcv : (parseTimeToday ct now).time = some cv) :
    isBuildingOpen building now =
      ⟨jsLe (parseTimeToday ot now) now && jsLe now (parseTimeToday ct now),
        some (parseTimeToday ot now), some (parseTimeToday ct now)⟩ := by
  have hwk : (now.dayOfWeek == 0 || now.dayOfWeek == 6) = false := by
    simp [hwd.1, hwd.2]
  simp only [isBuildingOpen]
  rw [hwk]
  simp only [Bool.false_eq_true, if_false, ho, hc,
    isEmpty_false_of_parses hov, isEmpty_false_of_parses hcv, Bool.or_self, if_false]

/-- C4: on a weekday with valid building hours and the reference instant
inside them, a room with an empty schedule list is classified closed with
status text "No classes today" and is not available (and in particular not
open). -/
theorem C4_no_blocks_closed (classroom : ClassroomWithBuilding) (now : JsDate)
    (ot ct : String) (n ov cv : Int)
    (hwd : now.dayOfWeek ≠ 0 ∧ now.dayOfWeek ≠ 6)
    (ho : classroom.building.weekday_open = some ot)
    (hc : classroom.building.weekday_close = some ct)
    (hn : now.time = some n)
    (hov : (parseTimeToday ot now).time = some ov)
    (hcv : (parseTimeToday ct now).time = some cv)
    (h1 : ov ≤ n) (h2 : n ≤ cv) :
    (calculateAvailability classroom [] now).status = "closed" ∧
    (calculateAvailability classroom [] now).isAvailable = false ∧
    (calculateAvailability classroom [] now).statusText = "No classes today" := by
  have hgate := isBuildingOpen_weekday hwd ho hc hov hcv
  have hl1 : jsLt now (parseTimeToday ot now) = false := by
    unfold jsLt
    rw [hn, hov]
    simp
    omega
  have hl2 : jsLt (parseTimeToday ct now) now = false := by
    unfold jsLt
    rw [hcv, hn]
    simp
    omega
  simp [calculateAvailability, hgate, hl1, hl2]

/-- Witness for C4: Monday noon, hours 08:00-22:00, no blocks. -/
theorem C4_witness :
    (calculateAvailability ⟨⟨some "08:00", some "22:00"⟩⟩ [] ⟨1, some 43200000⟩).status =
      "closed" ∧
    (calculateAvailability ⟨⟨some "08:00", some "22:00"⟩⟩ [] ⟨1, some 43200000⟩).isAvailable =
      false ∧
    (calculateAvailability ⟨⟨some "08:00", some "22:00"⟩⟩ [] ⟨1, some 43200000⟩).statusText =
      "No classes today" :=
  C4_no_blocks_closed ⟨⟨some "08:00", some "22:00"⟩⟩ ⟨1, some 43200000⟩ "08:00" "22:00"
    43200000 28800000 79200000 (by decide) rfl rfl rfl (by decide) (by decide)
    (by decide) (by decide)

/-- C5: on a Saturday or Sunday reference instant the building gate reports
closed with null bounds regardless of the stored weekday hours, and the
verdict is closed, unavailable, with status text "Closed on weekends". -/
theorem C5_weekend_closed (classroom : ClassroomWithBuilding)
    (schedules : List ClassSchedule) (now : JsDate)
    (hwk : now.dayOfWeek = 0 ∨ now.dayOfWeek = 6) :
    isBuildingOpen classroom.building now = ⟨false, none, none⟩ ∧
    (calculateAvailability classroom schedules now).status = "closed" ∧
    (calculateAvailability classroom schedules now).isAvailable = false ∧
    (calculateAvailability classroom schedules now).statusText = "Closed on weekends" := by
  have hwkb : (now.dayOfWeek == 0 || now.dayOfWeek == 6) = true := by
    rcases hwk with h | h <;> simp [h]
  have hgate : isBuildingOpen classroom.building now = ⟨false, none, none⟩ := by
    simp only [isBuildingOpen]
    rw [hwkb]
    simp
  refine ⟨hgate, ?_⟩
  simp [calculateAvailability, hgate, hwkb]

/-- Witness for C5: a Saturday noon with stored weekday hours. -/
theorem C5_witness :
    isBuildingOpen ⟨some "08:00", some "22:00"⟩ ⟨6, some 43200000⟩ = ⟨false, none, none⟩ ∧
    (calculateAvailability ⟨⟨some "08:00", some "22:00"⟩⟩ [⟨"09:00", "10:15", none⟩]
      ⟨6, some 43200000⟩).status = "closed" ∧
    (calculateAvailability ⟨⟨some "08:00", some "22:00"⟩⟩ [⟨"09:00", "10:15", none⟩]
      ⟨6, some 43200000⟩).isAvailable = false ∧
    (calculateAvailability ⟨⟨some "08:00", some "22:00"⟩⟩ [⟨"09:00", "10:15", none⟩]
      ⟨6, some 43200000⟩).statusText = "Closed on weekends" :=
  C5_weekend_closed ⟨⟨some "08:00", some "22:00"⟩⟩ [⟨"09:00", "10:15", none⟩]
    ⟨6, some 43200000⟩ (Or.inr rfl)

/-- C8: with weekday hours set (resolving to an interval with opening at or
before closing), every weekday reference instant strictly after the closing
instant yields the closed verdict "Building closed"; the classifier can never
report open, in-use or limited after closing time. -/
theorem C8_after_close_closed (classroom : ClassroomWithBuilding)
    (schedules : List ClassSchedule) (now : JsDate)
    (ot ct : String) (n ov cv : Int)
    (hwd : now.dayOfWeek ≠ 0 ∧ now.dayOfWeek ≠ 6)
    (ho : classroom.building.weekday_open = some ot)
    (hc : classroom.building.weekday_close = some ct)
    (hn : now.time = some n)
    (hov : (parseTimeToday ot now).time = some ov)
    (hcv : (parseTimeToday ct now).time = some cv)
    (hoc : ov ≤ cv) (hafter : cv < n) :
    (calculateAvailability classroom schedules now).status = "closed" ∧
    (calculateAvailability classroom schedules now).isAvailable = false ∧
    (calculateAvailability classroom schedules now).statusText = "Building closed" := by
  have hgate := isBuildingOpen_weekday hwd ho hc hov hcv
  have hl1 : jsLt now (parseTimeToday ot now) = false := by
    unfold jsLt
    rw [hn, hov]
    simp
    omega
  have hl2 : jsLt (parseTimeToday ct now) now = true := by
    unfold jsLt
    rw [hcv, hn]
    simp
    omega
  simp [calculateAvailability, hgate, hl1, hl2]

/-- Witness for C8: Monday 23:00 with hours 08:00-22:00 and one block. -/
theorem C8_witness :
    (calculateAvailability ⟨⟨some "08:00", some "22:00"⟩⟩ [⟨"09:00", "10:15", none⟩]
      ⟨1, some 82800000⟩).status = "closed" ∧
    (calculateAvailability ⟨⟨some "08:00", some "22:00"⟩⟩ [⟨"09:00", "10:15", none⟩]
      ⟨1, some 82800000⟩).isAvailable = false ∧
    (calculateAvailability ⟨⟨some "08:00", some "22:00"⟩⟩ [⟨"09:00", "10:15", none⟩]
      ⟨1, some 82800000⟩).statusText = "Building closed" :=
  C8_after_close_closed ⟨⟨some "08:00", some "22:00"⟩⟩ [⟨"09:00", "10:15", none⟩]
    ⟨1, some 82800000⟩ "08:00" "22:00" 82800000 28800000 79200000 (by decide) rfl rfl rfl
    (by decide) (by decide) (by decide) (by decide)

/-- C9 (amended): in Scenario A (building open 08:00-22:00 on a Monday, one
block 09:00-10:15, reference instant 08:00) the verdict is open and available,
but the status text is "Free until 9:00 AM (1h)": `formatDuration` omits the
minutes part for a whole-hour duration, so "(1h 0m)" is never produced.  The
original exact-text claim is refuted by `C9_counterexample`. -/
theorem C9_scenarioA :
    (calculateAvailability ⟨⟨some "08:00", some "22:00"⟩⟩ [⟨"09:00", "10:15", none⟩]
      ⟨1, some 28800000⟩).status = "open" ∧
    (calculateAvailability ⟨⟨some "08:00", some "22:00"⟩⟩ [⟨"09:00", "10:15", none⟩]
      ⟨1, some 28800000⟩).isAvailable = true ∧
    (calculateAvailability ⟨⟨some "08:00", some "22:00"⟩⟩ [⟨"09:00", "10:15", none⟩]
      ⟨1, some 28800000⟩).statusText = "Free until 9:00 AM (1h)" := by
  refine ⟨by decide, by decide, by decide⟩

/-- Counterexample to C9 as stated: on the Scenario A input the status text is
"Free until 9:00 AM (1h)", not "Free until 9:00 AM (1h 0m)" — a 60-minute
duration renders as "1h" with no minutes suffix. -/
theorem C9_counterexample :
    (calculateAvailability ⟨⟨some "08:00", some "22:00"⟩⟩ [⟨"09:00", "10:15", none⟩]
      ⟨1, some 28800000⟩).statusText ≠ "Free until 9:00 AM (1h 0m)" := by
  decide

/-- C10: for every input, the verdict's `isAvailable` flag is true exactly
when its status is "open"; every closed, in-use and limited verdict carries
`isAvailable = false`. -/
theorem C10_isAvailable_iff_open (classroom : ClassroomWithBuilding)
    (schedules : List ClassSchedule) (now : JsDate) :
    (calculateAvailability classroom schedules now).isAvailable = true ↔
      (calculateAvailability classroom schedules now).status = "open" := by
  simp only [calculateAvailability]
  repeat' split
  all_goals simp

/-- C6 (amended): every verdict classified open carries a status text of the
form rendered by `formatFreeUntilWithDuration`, whose time bound is the next
block's start whenever the scan found a next block — even when that start lies
after the building's closing instant — and the closing instant only when no
next block exists; the duration is the floored minute difference from the
reference instant to that bound.  The earlier-of-the-two-bounds version of the
claim is refuted by `C6_counterexample`. -/
theorem C6_open_statusText (classroom : ClassroomWithBuilding)
    (schedules : List ClassSchedule) (now : JsDate)
    (h : (calculateAvailability classroom schedules now).status = "open") :
    ∃ closesAt, (isBuildingOpen classroom.building now).closesAt = some closesAt ∧
      (calculateAvailability classroom schedules now).statusText =
        formatFreeUntilWithDuration
          (match (scanBlocks schedules now).2 with
           | some nextClass => parseTimeToday nextClass.start_time now
           | none => closesAt)
          (jsDiffMinutes
            (match (scanBlocks schedules now).2 with
             | some nextClass => parseTimeToday nextClass.start_time now
             | none => closesAt) now) := by
  rcases h1 : (isBuildingOpen classroom.building now).opensAt with _ | o <;>
    rcases h2 : (isBuildingOpen classroom.building now).closesAt with _ | cl <;>
    simp only [calculateAvailability, h1, h2] at h ⊢
  · exact absurd h (by decide)
  · exact absurd h (by decide)
  · exact absurd h (by decide)
  by_cases hb1 : jsLt now o = true
  · simp only [hb1, if_true] at h
    exact absurd h (by decide)
  simp only [hb1, Bool.false_eq_true, if_false] at h ⊢
  by_cases hb2 : jsLt cl now = true
  · simp only [hb2, if_true] at h
    exact absurd h (by decide)
  simp only [hb2, Bool.false_eq_true, if_false] at h ⊢
  by_cases hb3 : (schedules.length == 0) = true
  · simp only [hb3, if_true] at h
    exact absurd h (by decide)
  simp only [hb3, Bool.false_eq_true, if_false] at h ⊢
  rcases h3 : (scanBlocks schedules now).1 with _ | cur <;>
    simp only [h3] at h ⊢
  · rcases h4 : (scanBlocks schedules now).2 with _ | nxt <;>
      simp only [h4] at h ⊢
    · exact ⟨cl, rfl, by simp⟩
    · by_cases hb5 : (match jsDiffMinutes (parseTimeToday nxt.start_time now) now with
        | some m => decide (m < MIN_USABLE_MINUTES)
        | none => false) = true
      · simp only [hb5, if_true] at h
        exact absurd h (by decide)
      · simp only [hb5, Bool.false_eq_true, if_false] at h ⊢
        exact ⟨cl, rfl, by simp⟩
  · exact absurd h (by decide)

/-- Witness for C6: the Scenario A input, whose verdict is open with a next
block. -/
theorem C6_witness :
    ∃ closesAt,
      (isBuildingOpen ⟨some "08:00", some "22:00"⟩ ⟨1, some 28800000⟩).closesAt =
        some closesAt ∧
      (calculateAvailability ⟨⟨some "08:00", some "22:00"⟩⟩ [⟨"09:00", "10:15", none⟩]
        ⟨1, some 28800000⟩).statusText =
        formatFreeUntilWithDuration
          (match (scanBlocks [⟨"09:00", "10:15", none⟩] ⟨1, some 28800000⟩).2 with
           | some nextClass => parseTimeToday nextClass.start_time ⟨1, some 28800000⟩
           | none => closesAt)
          (jsDiffMinutes
            (match (scanBlocks [⟨"09:00", "10:15", none⟩] ⟨1, some 28800000⟩).2 with
             | some nextClass => parseTimeToday nextClass.start_time ⟨1, some 28800000⟩
             | none => closesAt) ⟨1, some 28800000⟩) :=
  C6_open_statusText ⟨⟨some "08:00", some "22:00"⟩⟩ [⟨"09:00", "10:15", none⟩]
    ⟨1, some 28800000⟩ (by decide)

/-- Counterexample to C6 as stated: building hours 08:00-22:00, one block
22:30-23:30, reference instant 21:00 (Monday).  The verdict is open and the
closing instant 22:00 precedes the next block's start 22:30, so the claimed
"earlier of the two" bound is 22:00, rendering "Free until 10:00 PM (1h)";
the code instead formats the next block's start: "Free until 10:30 PM
(1h 30m)". -/
theorem C6_counterexample :
    (calculateAvailability ⟨⟨some "08:00", some "22:00"⟩⟩ [⟨"22:30", "23:30", none⟩]
      ⟨1, some 75600000⟩).status = "open" ∧
    (isBuildingOpen ⟨some "08:00", some "22:00"⟩ ⟨1, some 75600000⟩).closesAt =
      some ⟨1, some 79200000⟩ ∧
    jsLt ⟨1, some 79200000⟩ (parseTimeToday "22:30" ⟨1, some 75600000⟩) = true ∧
    formatFreeUntilWithDuration ⟨1, some 79200000⟩
      (jsDiffMinutes ⟨1, some 79200000⟩ ⟨1, some 75600000⟩) = "Free until 10:00 PM (1h)" ∧
    (calculateAvailability ⟨⟨some "08:00", some "22:00"⟩⟩ [⟨"22:30", "23:30", none⟩]
      ⟨1, some 75600000⟩).statusText = "Free until 10:30 PM (1h 30m)" := by
  refine ⟨by decide, by decide, by decide, by decide, by decide⟩
